import Mathlib

/-!
# Verification of the IDML importer's geometry & style resolution engine

This file gives a shallow embedding, in Lean 4, of the pure core of the
`@imgly/idml-importer` repository: affine transform composition
(`src/lib/idml-parser/transforms.ts`), path-geometry reconstruction, color and
gradient resolution (`src/lib/idml-parser/utils.ts`), and text-frame ordering
and text splitting (`src/lib/idml-parser/buffer-url.ts`).

JavaScript numbers are modelled as rationals (`ℚ`), except for the
trigonometric gradient-control-point computation, which is modelled over the
reals (`ℝ`).  DOM elements are modelled as structures carrying exactly the
attributes the functions read; observable `console` logging is modelled by an
explicit log-message component in the return value of the functions that log
(or that are claimed to log).
-/

namespace IDML

/-- `Matrix` from `transforms.ts`: a 2x3 affine matrix `[a, b, c, d, e, f]`,
representing `[[a, c, e], [b, d, f], [0, 0, 1]]`. -/
structure Matrix where
  a : ℚ
  b : ℚ
  c : ℚ
  d : ℚ
  e : ℚ
  f : ℚ
deriving DecidableEq, Repr

/-- Result type of `transformPoint` (`{ x: number; y: number }`). -/
structure Point where
  x : ℚ
  y : ℚ
deriving DecidableEq, Repr

/-- The body of the `reduce` step of `multiplyItemTransforms`:
standard homogeneous 2D matrix product `M1 * M2`. -/
def matrixMul (acc current : Matrix) : Matrix :=
  { a := acc.a * current.a + acc.c * current.b
    b := acc.b * current.a + acc.d * current.b
    c := acc.a * current.c + acc.c * current.d
    d := acc.b * current.c + acc.d * current.d
    e := acc.a * current.e + acc.c * current.f + acc.e
    f := acc.b * current.e + acc.d * current.f + acc.f }

/-- The identity matrix `[1, 0, 0, 1, 0, 0]`, the seed of the fold in
`multiplyItemTransforms`. -/
def identityMatrix : Matrix :=
  { a := 1, b := 0, c := 0, d := 1, e := 0, f := 0 }

/-- `multiplyItemTransforms` from `transforms.ts`: left fold of the matrix
product over the list, seeded with the identity matrix. -/
def multiplyItemTransforms (transforms : List Matrix) : Matrix :=
  transforms.foldl matrixMul identityMatrix

/-- `transformPoint` from `transforms.ts`:
`x' = a*x + c*y + e`, `y' = b*x + d*y + f`. -/
def transformPoint (matrix : Matrix) (x y : ℚ) : Point :=
  { x := matrix.a * x + matrix.c * y + matrix.e
    y := matrix.b * x + matrix.d * y + matrix.f }

/-- `transformPointThroughTransforms` from `transforms.ts`. -/
def transformPointThroughTransforms (transforms : List Matrix) (x y : ℚ) : Point :=
  transformPoint (multiplyItemTransforms transforms) x y

/-- `RGBAColor` (from `@cesdk/engine`): normalized color channels. -/
structure RGBAColor where
  r : ℚ
  g : ℚ
  b : ℚ
  a : ℚ
deriving DecidableEq, Repr

/-- `CMYKColor` (from `@cesdk/engine`): CMYK components in `[0, 100]`. -/
structure CMYKColor where
  c : ℚ
  m : ℚ
  y : ℚ
  k : ℚ
  tint : ℚ
deriving DecidableEq, Repr

/-- `CMYKtoRGBA` from `utils.ts`: normalize each component by `100`, then
`new_color = 1 - min(1, input_color * (1 - K) + K)`; alpha is `1`.
The `tint` field is not read. -/
def CMYKtoRGBA (CMYK : CMYKColor) : RGBAColor :=
  let c := CMYK.c / 100
  let m := CMYK.m / 100
  let y := CMYK.y / 100
  let k := CMYK.k / 100
  { r := 1 - min 1 (c * (1 - k) + k)
    g := 1 - min 1 (m * (1 - k) + k)
    b := 1 - min 1 (y * (1 - k) + k)
    a := 1 }

/-- The opaque-black fallback value `{r: 0, g: 0, b: 0, a: 1}`. -/
def opaqueBlack : RGBAColor := { r := 0, g := 0, b := 0, a := 1 }

/-- A `Color` element of the graphic-resources document, carrying the three
attributes read by `extractColors`: `Self`, `Space`, and the
whitespace-separated numbers of `ColorValue` (already parsed; a malformed
component would be `NaN` in JavaScript, which `ℚ` cannot represent). -/
structure ColorTag where
  self : String
  space : String
  colorValue : List ℚ
deriving DecidableEq, Repr

/-- The per-`Color`-element body of the `map` inside `extractColors`:
CMYK values go through `CMYKtoRGBA` (with `tint: 1`), RGB values are divided
by `255`, and any other color space yields opaque black.  Indexing
`CMYK[0] .. CMYK[3]` and the RGB destructuring are modelled with `getD _ 0`
(the source assumes four resp. three components are present). -/
def colorEntry (colorTag : ColorTag) : String × RGBAColor :=
  if colorTag.space = "CMYK" then
    let CMYK := colorTag.colorValue
    (colorTag.self,
      CMYKtoRGBA
        { c := CMYK.getD 0 0, m := CMYK.getD 1 0, y := CMYK.getD 2 0,
          k := CMYK.getD 3 0, tint := 1 })
  else if colorTag.space = "RGB" then
    (colorTag.self,
      { r := colorTag.colorValue.getD 0 0 / 255
        g := colorTag.colorValue.getD 1 0 / 255
        b := colorTag.colorValue.getD 2 0 / 255
        a := 1 })
  else
    (colorTag.self, opaqueBlack)

/-- `extractColors` from `utils.ts`.  The resulting `Map` is modelled as an
association list in document order; the second component is the list of
console diagnostics the call emits — the source of `extractColors` contains
no logging call at all, so this component is always empty. -/
def extractColors (graphicResources : List ColorTag) :
    List (String × RGBAColor) × List String :=
  (graphicResources.map colorEntry, [])

/-- A `GradientStop` element: its `StopColor` reference and its optional
`Location` percentage (`none` models an absent — or, via JavaScript
truthiness, empty — attribute). -/
structure GradientStopTag where
  stopColor : String
  location : Option ℚ
deriving DecidableEq, Repr

/-- `getGradientStopColor` from `utils.ts`: look the `StopColor` reference up
in the color map; a missing reference yields opaque black, and the
`console.error` call is modelled by the log component of the result. -/
def getGradientStopColor (gradientStop : GradientStopTag)
    (colors : List (String × RGBAColor)) : RGBAColor × List String :=
  match colors.lookup gradientStop.stopColor with
  | some colorValue => (colorValue, [])
  | none =>
    (opaqueBlack,
      ["Unknown Gradient Stop Color Format found: " ++ gradientStop.stopColor])

/-- Helper for `Array.prototype.map`'s callback index: `mapWithIndexAux f i l`
applies `f` to each element together with its position, starting at `i`. -/
def mapWithIndexAux (f : ℕ → α → β) : ℕ → List α → List β
  | _, [] => []
  | i, x :: xs => f i x :: mapWithIndexAux f (i + 1) xs

/-- `l.map((x, index) => f(index, x))`. -/
def mapWithIndex (f : ℕ → α → β) (l : List α) : List β :=
  mapWithIndexAux f 0 l

/-- `GradientColorStop` (from `@cesdk/engine`). -/
structure GradientColorStop where
  color : RGBAColor
  stop : ℚ
deriving DecidableEq, Repr

/-- A `Gradient` element of the graphic-resources document, carrying the
attributes read by `extractGradients`: `Self`, `Type`, and its `GradientStop`
children. -/
structure GradientTag where
  self : String
  gradientType : String
  stops : List GradientStopTag
deriving DecidableEq, Repr

/-- The `Gradient` record of `types.ts`: a CE.SDK fill type and the color
stops.  `type` is `none` when the `Type` attribute is neither `Linear` nor
`Radial` (the TypeScript lookup would be `undefined`). -/
structure Gradient where
  type : Option String
  stops : List GradientColorStop
deriving DecidableEq, Repr

/-- The `gradientTypeMap` object of `extractGradients`. -/
def gradientTypeMap : List (String × String) :=
  [("Linear", "//ly.img.ubq/fill/gradient/linear"),
   ("Radial", "//ly.img.ubq/fill/gradient/radial")]

/-- The per-`Gradient`-element body of the `map` inside `extractGradients`:
each stop's position is `Location / 100` when the attribute is present and
`index / (count - 1)` otherwise; stop colors go through
`getGradientStopColor` (whose log component is dropped here, as the `Map`
value only keeps the color). -/
def gradientEntry (colors : List (String × RGBAColor)) (gradientTag : GradientTag) :
    String × Gradient :=
  let GradientStops := gradientTag.stops
  let gradientStops := mapWithIndex (fun index GradientStop =>
    let location : ℚ :=
      match GradientStop.location with
      | some loc => loc / 100
      | none => (index : ℚ) / ((GradientStops.length : ℚ) - 1)
    { color := (getGradientStopColor GradientStop colors).1
      stop := location }) GradientStops
  (gradientTag.self,
    { type := gradientTypeMap.lookup gradientTag.gradientType
      stops := gradientStops })

/-- `extractGradients` from `utils.ts`, as an association list in document
order. -/
def extractGradients (graphicResources : List GradientTag)
    (colors : List (String × RGBAColor)) : List (String × Gradient) :=
  graphicResources.map (gradientEntry colors)

/-- A `PathPointType` element: the parsed coordinate pairs of its `Anchor`,
`LeftDirection` and `RightDirection` attributes. -/
structure PathPoint where
  anchor : ℚ × ℚ
  leftDirection : ℚ × ℚ
  rightDirection : ℚ × ℚ
deriving DecidableEq, Repr

/-- A `GeometryPathType` element: its `PathOpen` attribute and its
`PathPointArray` children (each a sub-path, i.e. a list of path points). -/
structure GeometryPathType where
  pathOpen : Option String
  pathPointArrays : List (List PathPoint)
deriving DecidableEq, Repr

/-- A `PathGeometry` element: its `GeometryPathType` children. -/
structure PathGeometry where
  geometryTypes : List GeometryPathType
deriving DecidableEq, Repr

/-- `pathGeometry.getElementsByTagName("PathPointType")`: all path points in
document order.  In IDML every `PathPointType` descendant of a `PathGeometry`
sits inside a `PathPointArray` inside a `GeometryPathType`. -/
def allPathPoints (pathGeometry : PathGeometry) : List PathPoint :=
  (pathGeometry.geometryTypes.map (fun gt => gt.pathPointArrays.flatten)).flatten

/-- `Math.min(...values)`.  With no arguments JavaScript returns `Infinity`,
which `ℚ` cannot represent; path geometries always carry at least one point,
and we return `0` on the empty list. -/
def jsMin : List ℚ → ℚ
  | [] => 0
  | v :: vs => vs.foldl min v

/-- `Math.max(...values)` (with the same empty-list caveat as `jsMin`). -/
def jsMax : List ℚ → ℚ
  | [] => 0
  | v :: vs => vs.foldl max v

/-- JavaScript template-literal rendering of a number.  On integers (the only
values appearing in the concrete examples below) `toString` on `ℚ` agrees
with JavaScript number formatting. -/
def renderNum (q : ℚ) : String := toString q

/-- The `M` command emitted for the first point of a sub-path, with the
anchor translated into box-local coordinates. -/
def moveCommand (x y : ℚ) (point : PathPoint) : String :=
  "M " ++ renderNum (point.anchor.1 - x) ++ "," ++ renderNum (point.anchor.2 - y) ++ " "

/-- The `C` command emitted for each point of a sub-path: the point's own
`LeftDirection`, `RightDirection` and `Anchor`, translated into box-local
coordinates. -/
def curveCommand (x y : ℚ) (point : PathPoint) : String :=
  "C " ++ renderNum (point.leftDirection.1 - x) ++ "," ++ renderNum (point.leftDirection.2 - y)
    ++ " " ++ renderNum (point.rightDirection.1 - x) ++ "," ++ renderNum (point.rightDirection.2 - y)
    ++ " " ++ renderNum (point.anchor.1 - x) ++ "," ++ renderNum (point.anchor.2 - y) ++ " "

/-- One iteration of the `forEach((point, i) => ...)` that builds a sub-path:
at index `0` the move command is emitted first, and every index (including
`0`) emits the curve command. -/
def pointPathData (x y : ℚ) (i : ℕ) (point : PathPoint) : String :=
  if i = 0 then moveCommand x y point ++ curveCommand x y point
  else curveCommand x y point

/-- The string accumulation of the `forEach` over a `PathPointArray`,
starting at index `i`. -/
def subPathDataAux (x y : ℚ) : ℕ → List PathPoint → String
  | _, [] => ""
  | i, point :: rest => pointPathData x y i point ++ subPathDataAux x y (i + 1) rest

/-- The `pathData` string built for one `PathPointArray`. -/
def subPathData (x y : ℚ) (pointArray : List PathPoint) : String :=
  subPathDataAux x y 0 pointArray

/-- The sub-path strings of one `GeometryPathType`: each `PathPointArray`
yields its data, with a closing `Z` appended exactly when the `PathOpen`
attribute is the string `"false"`. -/
def geometryTypePathData (x y : ℚ) (geometryType : GeometryPathType) : List String :=
  geometryType.pathPointArrays.map (fun pointArray =>
    subPathData x y pointArray ++
      (if geometryType.pathOpen = some "false" then "Z" else ""))

/-- The result record of `parsePathGeometry`. -/
structure PathGeometryResult where
  x : ℚ
  y : ℚ
  width : ℚ
  height : ℚ
  centerX : ℚ
  centerY : ℚ
  pathData : String
deriving DecidableEq, Repr

/-- `parsePathGeometry` from `utils.ts`: the bounding box is computed from
the `Anchor` coordinates of all `PathPointType` elements (`xValues` and
`yValues` receive only the anchor components), and the `pathData` string
is the whitespace-joined list of sub-path strings. -/
def parsePathGeometry (pathGeometry : PathGeometry) : PathGeometryResult :=
  let points := allPathPoints pathGeometry
  let xValues := points.map (fun point => point.anchor.1)
  let yValues := points.map (fun point => point.anchor.2)
  let x := jsMin xValues
  let y := jsMin yValues
  let width := jsMax xValues - x
  let height := jsMax yValues - y
  let centerX := x + width / 2
  let centerY := y + height / 2
  let allPathData := (pathGeometry.geometryTypes.map (geometryTypePathData x y)).flatten
  { x := x, y := y, width := width, height := height,
    centerX := centerX, centerY := centerY,
    pathData := String.intercalate " " allPathData }

/-- Concrete path geometry: four anchors forming a 10×10 square, the first
point carrying an outgoing control point (`RightDirection`) at `(15, 15)`,
outside the anchor hull. -/
def squareWithBulge : PathGeometry :=
  ⟨[⟨some "false",
     [[⟨(0, 0), (0, 0), (15, 15)⟩,
       ⟨(10, 0), (10, 0), (10, 0)⟩,
       ⟨(10, 10), (10, 10), (10, 10)⟩,
       ⟨(0, 10), (0, 10), (0, 10)⟩]]⟩]⟩

/-- Concrete path geometry: one open two-point sub-path with genuine curve
handles. -/
def twoPointOpenGeometry : PathGeometry :=
  ⟨[⟨some "true",
     [[⟨(0, 0), (-1, -2), (1, 2)⟩,
       ⟨(10, 0), (9, 1), (11, -1)⟩]]⟩]⟩

/-- The curve chain claimed by the specification: segment `i → i+1` uses
`(right_i, left_(i+1), anchor_(i+1))`, all translated into box-local
coordinates.  Modelled from the spec: this definition follows the spec's
words, to be compared against `parsePathGeometry`. -/
def specSegmentsData (x y : ℚ) : PathPoint → List PathPoint → String
  | _, [] => ""
  | prev, point :: rest =>
    "C " ++ renderNum (prev.rightDirection.1 - x) ++ "," ++ renderNum (prev.rightDirection.2 - y)
      ++ " " ++ renderNum (point.leftDirection.1 - x) ++ "," ++ renderNum (point.leftDirection.2 - y)
      ++ " " ++ renderNum (point.anchor.1 - x) ++ "," ++ renderNum (point.anchor.2 - y) ++ " "
      ++ specSegmentsData x y point rest

/-- The sub-path description claimed by the specification: a move to the
first anchor, then one cubic per subsequent point pairing the previous
point's outgoing handle with the next point's incoming handle, then a
closing command exactly when the sub-path is flagged closed.  Modelled from
the spec's words. -/
def specSubPathData (x y : ℚ) (closed : Prop) [Decidable closed]
    (points : List PathPoint) : String :=
  (match points with
   | [] => ""
   | point :: rest => moveCommand x y point ++ specSegmentsData x y point rest)
  ++ (if closed then "Z" else "")

/-- The curve commands of all points of a sub-path, in order. -/
def curvesData (x y : ℚ) : List PathPoint → String
  | [] => ""
  | point :: rest => curveCommand x y point ++ curvesData x y rest

/-- The sub-path description the code actually emits, written head-first:
a move to the first anchor, then every point's own
`(left_i, right_i, anchor_i)` curve command (including point `0`), then a
closing command exactly when the sub-path is flagged closed. -/
def describedSubPathData (x y : ℚ) (closed : Prop) [Decidable closed]
    (points : List PathPoint) : String :=
  (match points with
   | [] => ""
   | point :: _ => moveCommand x y point)
  ++ curvesData x y points
  ++ (if closed then "Z" else "")

/-- The well-formedness condition for a gradient stop used by the amended C8:
an explicit `Location` lies in `[0, 100]`, and a stop without a `Location`
only occurs in a gradient with at least two stops. -/
def stopSpecOK (gt : GradientTag) (s : GradientStopTag) : Prop :=
  match s.location with
  | some loc => 0 ≤ loc ∧ loc ≤ 100
  | none => 2 ≤ gt.stops.length

instance (gt : GradientTag) (s : GradientStopTag) : Decidable (stopSpecOK gt s) := by
  unfold stopSpecOK
  cases s.location <;> infer_instance

/-- `Math.round` on a non-negative value: `round(x) = floor(x + 1/2)`
(JavaScript rounds halves up; all values rounded by
`calculateSplitIndices` are non-negative, where this identity is exact). -/
def jsRound (q : ℚ) : ℤ := ⌊q + 1 / 2⌋

/-- The match positions of the global regex `/\r\n|\r|\n|\u2028/g`, scanning
left to right with `\r\n` preferred over its parts, starting at index `i`. -/
def nlIndicesAux : ℕ → List Char → List ℕ
  | _, [] => []
  | i, '\r' :: '\n' :: rest => i :: nlIndicesAux (i + 2) rest
  | i, c :: rest =>
    if c = '\r' ∨ c = '\n' ∨ c = '\u2028' then i :: nlIndicesAux (i + 1) rest
    else nlIndicesAux (i + 1) rest

/-- All line-break match positions of a text (the `nlIndices` array). -/
def nlIndicesOf (fullText : List Char) : List ℕ :=
  nlIndicesAux 0 fullText

/-- The length of the line-break match at position `idx`
(`fullText.substring(idx).match(/^(\r\n|\r|\n|\u2028)/)`): `2` for `\r\n`,
otherwise `1` — the source also falls back to adding `1` when the anchored
match fails, which coincides with this definition. -/
def breakLenAt (fullText : List Char) (idx : ℕ) : ℕ :=
  if fullText.get? idx = some '\r' ∧ fullText.get? (idx + 1) = some '\n' then 2
  else 1

/-- The `for (let i = 0; i < numFrames - 1; i++)` loop of
`calculateSplitIndices`: `k` counts the remaining iterations, `i` is the
loop index and `lastSplit` the previous split.  `bestSplitCandidate` is
the split candidate before clamping: the rounded ideal target, or, when an
in-window line break exists, the position right after the break closest to
the target (stable sort, matching `Array.prototype.sort` with a numeric
comparator).  JavaScript's literal `0.2` is modelled as the exact rational
`2/10`. -/
def bestSplitCandidate (fullText : List Char) (textLen : ℕ) (idealChars : ℚ)
    (nlIndices : List ℕ) (i lastSplit : ℕ) : ℤ :=
  let target : ℤ := jsRound ((i + 1 : ℚ) * idealChars)
  let winRadius : ℤ := max (jsRound (idealChars * (2 / 10))) 20
  let nls := nlIndices.filter (fun (idx : ℕ) =>
    decide (max (lastSplit : ℤ) (target - winRadius) ≤ (idx : ℤ)) &&
    decide ((idx : ℤ) < min (textLen : ℤ) (target + winRadius)) &&
    decide ((lastSplit : ℤ) < (idx : ℤ)))
  if nls = [] then target
  else
    let sorted := nls.mergeSort (fun (a b : ℕ) =>
      decide (((a : ℤ) - target).natAbs ≤ ((b : ℤ) - target).natAbs))
    let nl0 : ℕ := sorted.headD 0
    (nl0 : ℤ) + (breakLenAt fullText nl0 : ℤ)

/-- The loop body continued: the candidate is clamped to
`[lastSplit, textLen]`, pushed, and carried into the next iteration. -/
def splitLoopGo (fullText : List Char) (textLen : ℕ) (idealChars : ℚ)
    (nlIndices : List ℕ) : ℕ → ℕ → ℕ → List ℕ
  | 0, _, _ => []
  | k + 1, i, lastSplit =>
    let bestSplit := bestSplitCandidate fullText textLen idealChars nlIndices i lastSplit
    let clamped : ℤ := min (textLen : ℤ) (max (lastSplit : ℤ) bestSplit)
    clamped.toNat :: splitLoopGo fullText textLen idealChars nlIndices k (i + 1) clamped.toNat

/-- `calculateSplitIndices` from `buffer-url.ts`.  The text is modelled as
its list of UTF-16 code units. -/
def calculateSplitIndices (fullText : List Char) (numFrames : ℕ) : List ℕ :=
  let textLen := fullText.length
  if numFrames ≤ 1 ∨ textLen = 0 then []
  else
    splitLoopGo fullText textLen ((textLen : ℚ) / (numFrames : ℚ))
      (nlIndicesOf fullText) (numFrames - 1) 0 0

/-- Cutting a text at a list of split indices: consecutive
`[boundary, next boundary)` slices, the final slice running to the end of
the text — the ranges `updateFrameContents` assigns to the ordered frames. -/
def cutAtSplitsGo (fullText : List Char) : ℕ → List ℕ → List (List Char)
  | start, [] => [fullText.drop start]
  | start, b :: bs => ((fullText.drop start).take (b - start)) :: cutAtSplitsGo fullText b bs

/-- `cutAtSplits fullText splits`: the list of substrings of `fullText`
delimited by `0, splits…, fullText.length`. -/
def cutAtSplits (fullText : List Char) (splits : List ℕ) : List (List Char) :=
  cutAtSplitsGo fullText 0 splits

/-- A `TextFrame` element, carrying the three attributes read by
`orderTextFrames`: `Self`, `PreviousTextFrame` and `NextTextFrame`
(`none` models an absent attribute). -/
structure TextFrame where
  self : String
  previousTextFrame : Option String
  nextTextFrame : Option String
deriving DecidableEq, Repr

/-- `frameMap.get(id)` for the `Map` built from `[Self, frame]` entries:
a JavaScript `Map` constructor keeps the LAST entry for a duplicated key. -/
def frameMapGet (textFrames : List TextFrame) (id : String) : Option TextFrame :=
  (textFrames.filter (fun tf => tf.self == id)).getLast?

/-- The update of `currentFrame` at the end of each `while` iteration:
`nextId && nextId !== "n" ? frameMap.get(nextId) : undefined` (an absent
attribute and the empty string are both falsy). -/
def nextFrame (textFrames : List TextFrame) (currentFrame : TextFrame) : Option TextFrame :=
  match currentFrame.nextTextFrame with
  | some nextId =>
    if nextId ≠ "" ∧ nextId ≠ "n" then frameMapGet textFrames nextId else none
  | none => none

/-- The `while (currentFrame)` walk of `orderTextFrames`, with the visited
set, the collected order and the console log trace as explicit accumulators.
The `fuel` argument bounds the number of iterations; `orderTextFrames` calls
it with more fuel than the walk can consume (`orderGo_fuel_irrelevant`
below shows any such fuel yields the same result), so the zero-fuel arm is
unreachable and the walk matches the unbounded source loop. -/
def orderGo (textFrames : List TextFrame) :
    ℕ → Option TextFrame → List String → List TextFrame → List String →
      List TextFrame × List String
  | _, none, _, ordered, logs => (ordered, logs)
  | 0, some _, _, ordered, logs => (ordered, logs)
  | fuel + 1, some currentFrame, visited, ordered, logs =>
    if currentFrame.self ∈ visited then (ordered, logs ++ ["! Loop detected"])
    else
      let visited2 := visited ++ [currentFrame.self]
      let ordered2 := ordered ++ [currentFrame]
      orderGo textFrames fuel (nextFrame textFrames currentFrame) visited2 ordered2 logs

/-- `orderTextFrames` from `buffer-url.ts`: find the head frame
(`PreviousTextFrame == "n"`), returning `null` when there is none; walk the
`NextTextFrame` chain, breaking with a logged warning when a frame id
repeats; return `null` when the walk collected nothing from a non-empty
input, and log a mismatch warning when the walk did not visit every frame.
The second component is the console log trace. -/
def orderTextFrames (textFrames : List TextFrame) :
    Option (List TextFrame) × List String :=
  match textFrames.find? (fun tf => tf.previousTextFrame == some "n") with
  | none => (none, [])
  | some currentFrame =>
    let result := orderGo textFrames (textFrames.length + 1) (some currentFrame) [] [] []
    if result.1.length = 0 ∧ 0 < textFrames.length then (none, result.2)
    else if result.1.length ≠ textFrames.length then
      (result.1,
        result.2 ++
          ["! Frame order mismatch (" ++ toString result.1.length ++ "/" ++
            toString textFrames.length ++ ")"])
    else (result.1, result.2)

/-- The number of frame ids (with multiplicity) not yet visited: the
decreasing measure of the `orderTextFrames` walk. -/
def remainingIds (textFrames : List TextFrame) (visited : List String) : ℕ :=
  ((textFrames.map (fun tf => tf.self)).filter (fun id => decide (id ∉ visited))).length

/-- Concrete text frame `A`: chain head, linking to `B`. -/
def frameA : TextFrame := ⟨"A", some "n", some "B"⟩

/-- Concrete text frame `B`: links back to `A`, closing a cycle. -/
def frameB : TextFrame := ⟨"B", some "A", some "A"⟩

/-- `Vector2` from `types.ts`, over the reals (the gradient-control-point
computation is trigonometric). -/
structure Vector2 where
  x : ℝ
  y : ℝ

/-- `scaleAndTranslateToUnitRect` from `utils.ts`: scale and translate a
vector so that it sits on the circumference of the unit rectangle centered
at `(0.5, 0.5)`; the zero vector maps to the center. -/
noncomputable def scaleAndTranslateToUnitRect (value : Vector2) : Vector2 :=
  let longSide := max |value.x| |value.y|
  if longSide = 0 then ⟨0.5, 0.5⟩
  else ⟨value.x / longSide * 0.5 + 0.5, value.y / longSide * 0.5 + 0.5⟩

/-- The module-level constant `sqrtOfTwo = Math.sqrt(2)`. -/
noncomputable def sqrtOfTwo : ℝ := Real.sqrt 2

/-- The result record of `angleToGradientControlPoints`; the source's `end`
field is named `endPoint` (`end` is reserved in Lean). -/
structure GradientControlPoints where
  start : Vector2
  endPoint : Vector2

/-- `angleToGradientControlPoints` from `utils.ts`: rotate by
`angle + 90°` (converted to radians), build two opposite vectors scaled by
`√2` with the x-component divided by the aspect ratio, and project both
onto the unit rectangle. -/
noncomputable def angleToGradientControlPoints (angleInDegrees aspectRatio : ℝ) :
    GradientControlPoints :=
  let rad := ((angleInDegrees + 90) / 180) * Real.pi
  let start : Vector2 :=
    ⟨Real.cos (rad + Real.pi) / aspectRatio * sqrtOfTwo,
     Real.sin (rad + Real.pi) * sqrtOfTwo⟩
  let endV : Vector2 :=
    ⟨Real.cos rad / aspectRatio * sqrtOfTwo,
     Real.sin rad * sqrtOfTwo⟩
  { start := scaleAndTranslateToUnitRect start
    endPoint := scaleAndTranslateToUnitRect endV }

/-- A JavaScript number with its IEEE-754 special values: a finite value
(kept exact as a real), `Infinity`, `-Infinity`, or `NaN`.  Signed zero is
collapsed into `finite 0`; in `angleToGradientControlPoints` the only
division denominators are the positive literal `180`, the caller's
`aspectRatio`, and the non-negative `longSide`, so the collapsed model
agrees with JavaScript on every path exercised below.  This domain exists
to keep the `aspectRatio = 0` error path of the source observable, which
the plain real-valued embedding (where `x / 0 = 0`) collapses. -/
inductive JSNum where
  | finite (x : ℝ)
  | posInf
  | negInf
  | nan

noncomputable instance : DecidableEq JSNum := Classical.decEq JSNum

/-- JavaScript `+` on the special-value domain. -/
noncomputable def jsAdd : JSNum → JSNum → JSNum
  | JSNum.nan, _ => JSNum.nan
  | _, JSNum.nan => JSNum.nan
  | JSNum.finite x, JSNum.finite y => JSNum.finite (x + y)
  | JSNum.posInf, JSNum.negInf => JSNum.nan
  | JSNum.negInf, JSNum.posInf => JSNum.nan
  | JSNum.posInf, _ => JSNum.posInf
  | _, JSNum.posInf => JSNum.posInf
  | JSNum.negInf, _ => JSNum.negInf
  | _, JSNum.negInf => JSNum.negInf

/-- JavaScript `*` on the special-value domain (`0 * Infinity = NaN`). -/
noncomputable def jsMul : JSNum → JSNum → JSNum
  | JSNum.nan, _ => JSNum.nan
  | _, JSNum.nan => JSNum.nan
  | JSNum.finite x, JSNum.finite y => JSNum.finite (x * y)
  | JSNum.finite x, JSNum.posInf =>
    if x = 0 then JSNum.nan else if 0 < x then JSNum.posInf else JSNum.negInf
  | JSNum.posInf, JSNum.finite x =>
    if x = 0 then JSNum.nan else if 0 < x then JSNum.posInf else JSNum.negInf
  | JSNum.finite x, JSNum.negInf =>
    if x = 0 then JSNum.nan else if 0 < x then JSNum.negInf else JSNum.posInf
  | JSNum.negInf, JSNum.finite x =>
    if x = 0 then JSNum.nan else if 0 < x then JSNum.negInf else JSNum.posInf
  | JSNum.posInf, JSNum.posInf => JSNum.posInf
  | JSNum.posInf, JSNum.negInf => JSNum.negInf
  | JSNum.negInf, JSNum.posInf => JSNum.negInf
  | JSNum.negInf, JSNum.negInf => JSNum.posInf

/-- JavaScript `/` on the special-value domain: `0 / 0 = NaN`, a nonzero
finite value over (positive) zero gives a signed infinity, a finite value
over an infinity gives `0`, and `Infinity / Infinity = NaN`. -/
noncomputable def jsDiv : JSNum → JSNum → JSNum
  | JSNum.nan, _ => JSNum.nan
  | _, JSNum.nan => JSNum.nan
  | JSNum.finite x, JSNum.finite y =>
    if y = 0 then
      (if x = 0 then JSNum.nan else if 0 < x then JSNum.posInf else JSNum.negInf)
    else JSNum.finite (x / y)
  | JSNum.finite _, JSNum.posInf => JSNum.finite 0
  | JSNum.finite _, JSNum.negInf => JSNum.finite 0
  | JSNum.posInf, JSNum.finite y => if 0 ≤ y then JSNum.posInf else JSNum.negInf
  | JSNum.negInf, JSNum.finite y => if 0 ≤ y then JSNum.negInf else JSNum.posInf
  | JSNum.posInf, _ => JSNum.nan
  | JSNum.negInf, _ => JSNum.nan

/-- JavaScript `Math.abs`. -/
noncomputable def jsAbs : JSNum → JSNum
  | JSNum.nan => JSNum.nan
  | JSNum.posInf => JSNum.posInf
  | JSNum.negInf => JSNum.posInf
  | JSNum.finite x => JSNum.finite |x|

/-- JavaScript `Math.max` on the special-value domain (named `jsNumMax` to
keep it apart from the rational `jsMax` above; any `NaN` argument makes the
result `NaN`). -/
noncomputable def jsNumMax : JSNum → JSNum → JSNum
  | JSNum.nan, _ => JSNum.nan
  | _, JSNum.nan => JSNum.nan
  | JSNum.posInf, _ => JSNum.posInf
  | _, JSNum.posInf => JSNum.posInf
  | JSNum.negInf, b => b
  | a, JSNum.negInf => a
  | JSNum.finite x, JSNum.finite y => JSNum.finite (max x y)

/-- JavaScript `Math.cos` (`NaN` on the non-finite inputs). -/
noncomputable def jsCos : JSNum → JSNum
  | JSNum.finite x => JSNum.finite (Real.cos x)
  | _ => JSNum.nan

/-- JavaScript `Math.sin` (`NaN` on the non-finite inputs). -/
noncomputable def jsSin : JSNum → JSNum
  | JSNum.finite x => JSNum.finite (Real.sin x)
  | _ => JSNum.nan

/-- The module constant `sqrtOfTwo` in the special-value domain. -/
noncomputable def jsSqrtOfTwo : JSNum := JSNum.finite (Real.sqrt 2)

/-- A `Vector2` over JavaScript numbers. -/
structure JSVector2 where
  x : JSNum
  y : JSNum

/-- The `{start, end}` record of `angleToGradientControlPoints` over
JavaScript numbers (its `end` field is named `endPoint`; `end` is reserved
in Lean). -/
structure JSGradientControlPoints where
  start : JSVector2
  endPoint : JSVector2

/-- `scaleAndTranslateToUnitRect` over JavaScript numbers, mirroring the
source line by line: `longSide = Math.max(Math.abs(x), Math.abs(y))`; the
`longSide === 0` guard; otherwise each component becomes
`component / longSide * 0.5 + 0.5`. -/
noncomputable def jsScaleAndTranslateToUnitRect (value : JSVector2) : JSVector2 :=
  let longSide := jsNumMax (jsAbs value.x) (jsAbs value.y)
  if longSide = JSNum.finite 0 then ⟨JSNum.finite 0.5, JSNum.finite 0.5⟩
  else
    ⟨jsAdd (jsMul (jsDiv value.x longSide) (JSNum.finite 0.5)) (JSNum.finite 0.5),
     jsAdd (jsMul (jsDiv value.y longSide) (JSNum.finite 0.5)) (JSNum.finite 0.5)⟩

/-- `angleToGradientControlPoints` over JavaScript numbers, mirroring the
source: `rad = ((angle + 90) / 180) * π`, the `start` vector built from
`cos(rad + π) / aspectRatio * √2` and `sin(rad + π) * √2`, the `end` vector
from `cos(rad) / aspectRatio * √2` and `sin(rad) * √2`, both projected onto
the unit rectangle. -/
noncomputable def jsAngleToGradientControlPoints (angleInDegrees aspectRatio : JSNum) :
    JSGradientControlPoints :=
  let rad := jsMul (jsDiv (jsAdd angleInDegrees (JSNum.finite 90)) (JSNum.finite 180))
    (JSNum.finite Real.pi)
  let start : JSVector2 :=
    ⟨jsMul (jsDiv (jsCos (jsAdd rad (JSNum.finite Real.pi))) aspectRatio) jsSqrtOfTwo,
     jsMul (jsSin (jsAdd rad (JSNum.finite Real.pi))) jsSqrtOfTwo⟩
  let endV : JSVector2 :=
    ⟨jsMul (jsDiv (jsCos rad) aspectRatio) jsSqrtOfTwo,
     jsMul (jsSin rad) jsSqrtOfTwo⟩
  { start := jsScaleAndTranslateToUnitRect start
    endPoint := jsScaleAndTranslateToUnitRect endV }

/-- C3: composing two matrices with `multiplyItemTransforms` and applying the
result to a point with `transformPoint` agrees with applying the last-listed
(innermost) matrix first and the first-listed one afterwards:
`transformPoint (multiplyItemTransforms [A, B]) p =
 transformPoint A (transformPoint B p)`. -/
theorem compose_apply_innermost_first (A B : Matrix) (x y : ℚ) :
    transformPoint (multiplyItemTransforms [A, B]) x y =
      transformPoint A (transformPoint B x y).x (transformPoint B x y).y := by
  obtain ⟨a1, b1, c1, d1, e1, f1⟩ := A
  obtain ⟨a2, b2, c2, d2, e2, f2⟩ := B
  simp only [multiplyItemTransforms, List.foldl, matrixMul, identityMatrix,
    transformPoint, Point.mk.injEq]
  constructor <;> ring

/-- C10: `multiplyItemTransforms` applied to the empty list of matrices
returns the identity matrix `(1, 0, 0, 1, 0, 0)`: the fold is seeded with the
identity, so composition is total, including on the empty list. -/
theorem multiplyItemTransforms_nil :
    multiplyItemTransforms [] = { a := 1, b := 0, c := 0, d := 1, e := 0, f := 0 } := rfl

/-- Prepending the empty string is the identity. -/
theorem string_empty_append (s : String) : "" ++ s = s := by
  cases s
  rfl

/-- From index `1` onwards the `forEach` body only emits curve commands. -/
theorem subPathDataAux_succ (x y : ℚ) :
    ∀ (points : List PathPoint) (i : ℕ),
      subPathDataAux x y (i + 1) points = curvesData x y points
  | [], _ => rfl
  | point :: rest, i => by
    rw [subPathDataAux, curvesData, pointPathData, if_neg (Nat.succ_ne_zero i),
      subPathDataAux_succ x y rest (i + 1)]

/-- Every element of `mapWithIndexAux f i l` is `f (i + j) (l.get j)` for some
position `j`. -/
theorem mem_mapWithIndexAux {f : ℕ → α → β} {b : β} :
    ∀ {l : List α} {i : ℕ}, b ∈ mapWithIndexAux f i l →
      ∃ j, ∃ h : j < l.length, b = f (i + j) (l.get ⟨j, h⟩)
  | [], _, h => absurd h (List.not_mem_nil b)
  | x :: xs, i, h => by
    rcases List.mem_cons.mp h with h1 | h2
    · exact ⟨0, Nat.succ_pos _, by simpa using h1⟩
    · obtain ⟨j, hj, hb⟩ := mem_mapWithIndexAux h2
      exact ⟨j + 1, Nat.succ_lt_succ hj, by
        simpa [Nat.add_assoc, Nat.add_comm 1 j] using hb⟩

/-- C6: a CMYK color resource is converted by `extractColors` through
`CMYKtoRGBA`: each component is normalized to `[0,1]` by dividing by `100`,
then `R = 1 - min(1, C*(1-K) + K)` (symmetrically for G and B) with alpha `1`;
in particular CMYK `(0,0,0,0)` resolves to white and `(0,0,0,100)` to black. -/
theorem extractColors_CMYK (key : String) (c m y k : ℚ) :
    extractColors [⟨key, "CMYK", [c, m, y, k]⟩] =
      ([(key, CMYKtoRGBA ⟨c, m, y, k, 1⟩)], []) ∧
    CMYKtoRGBA ⟨c, m, y, k, 1⟩ =
      { r := 1 - min 1 (c / 100 * (1 - k / 100) + k / 100)
        g := 1 - min 1 (m / 100 * (1 - k / 100) + k / 100)
        b := 1 - min 1 (y / 100 * (1 - k / 100) + k / 100)
        a := 1 } ∧
    CMYKtoRGBA ⟨0, 0, 0, 0, 1⟩ = { r := 1, g := 1, b := 1, a := 1 } ∧
    CMYKtoRGBA ⟨0, 0, 0, 100, 1⟩ = { r := 0, g := 0, b := 0, a := 1 } := by
  refine ⟨rfl, rfl, ?_, ?_⟩ <;> simp [CMYKtoRGBA, min_def]

/-- C9 counterexample: resolving a color resource whose space is neither CMYK
nor RGB (here `"Lab"`) yields opaque black but emits NO diagnostic — the log
trace of `extractColors` is empty, contradicting the claim that the fallback
comes "together with a logged warning/error diagnostic". -/
theorem extractColors_unknownSpace_silent :
    extractColors [⟨"c1", "Lab", [50, 20, 10]⟩] = ([("c1", opaqueBlack)], []) := by
  decide

/-- C9 as amended: a color resource of unknown color space resolves to opaque
black silently (the log trace of `extractColors` is always empty), while a
gradient stop whose `StopColor` reference is missing from the color map
resolves to opaque black with a logged error; neither path throws, so
processing of the remaining resources continues. -/
theorem fallback_opaqueBlack (tag : ColorTag) (stop : GradientStopTag)
    (colors : List (String × RGBAColor)) (graphicResources : List ColorTag)
    (hc : tag.space ≠ "CMYK") (hr : tag.space ≠ "RGB")
    (hmiss : colors.lookup stop.stopColor = none) :
    colorEntry tag = (tag.self, opaqueBlack) ∧
    (extractColors graphicResources).2 = [] ∧
    getGradientStopColor stop colors =
      (opaqueBlack,
        ["Unknown Gradient Stop Color Format found: " ++ stop.stopColor]) := by
  refine ⟨?_, rfl, ?_⟩
  · simp [colorEntry, hc, hr]
  · simp [getGradientStopColor, hmiss]

/-- Witness for C9: the fallback theorem applied to the concrete unknown-space
resource `("c1", "Lab")` and the concrete missing stop reference `"missing"`
against an empty color map. -/
theorem fallback_opaqueBlack_witness :
    colorEntry ⟨"c1", "Lab", [50, 20, 10]⟩ = ("c1", opaqueBlack) ∧
    (extractColors []).2 = [] ∧
    getGradientStopColor ⟨"missing", none⟩ [] =
      (opaqueBlack, ["Unknown Gradient Stop Color Format found: " ++ "missing"]) :=
  fallback_opaqueBlack ⟨"c1", "Lab", [50, 20, 10]⟩ ⟨"missing", none⟩ [] []
    (by decide) (by decide) (by decide)

/-- C8 counterexample: a gradient stop with explicit `Location="150"` is given
position `150 / 100 = 3/2`, which does not lie in `[0, 1]` — the code applies
no clamping, so the claimed invariant fails on this document. -/
theorem gradientStop_position_out_of_range :
    ((gradientEntry [] ⟨"g1", "Linear", [⟨"c", some 150⟩]⟩).2.stops.map
      (fun s => s.stop)) = [3 / 2] ∧ ¬ ((3 / 2 : ℚ) ≤ 1) := by
  constructor
  · simp only [gradientEntry, mapWithIndex, mapWithIndexAux, List.map]
    norm_num
  · norm_num

/-- C8 as amended: provided every explicit `Location` percentage lies in
`[0, 100]`, and every gradient containing a stop without a `Location` has at
least two stops, every color stop produced by `extractGradients` has its
position in `[0, 1]` — the position being `Location / 100` when present and
`index / (count - 1)` otherwise. -/
theorem extractGradients_position_in_unit_interval
    (graphicResources : List GradientTag) (colors : List (String × RGBAColor))
    (hstops : ∀ gt ∈ graphicResources, ∀ s ∈ gt.stops, stopSpecOK gt s) :
    ∀ entry ∈ extractGradients graphicResources colors,
      ∀ st ∈ entry.2.stops, 0 ≤ st.stop ∧ st.stop ≤ 1 := by
  intro entry hentry st hst
  rw [extractGradients, List.mem_map] at hentry
  obtain ⟨gt, hgt, rfl⟩ := hentry
  rw [gradientEntry] at hst
  simp only at hst
  obtain ⟨j, hj, rfl⟩ := mem_mapWithIndexAux hst
  simp only [Nat.zero_add]
  have hsmem : gt.stops.get ⟨j, hj⟩ ∈ gt.stops := List.get_mem _ _ _
  have hspec := hstops gt hgt _ hsmem
  unfold stopSpecOK at hspec
  cases hloc : (gt.stops.get ⟨j, hj⟩).location with
  | some loc =>
    rw [hloc] at hspec
    simp only [hloc]
    constructor
    · exact div_nonneg hspec.1 (by norm_num)
    · rw [div_le_one (by norm_num)]
      linarith [hspec.2]
  | none =>
    rw [hloc] at hspec
    simp only [hloc]
    have hlen : (2 : ℚ) ≤ (gt.stops.length : ℚ) := by exact_mod_cast hspec
    have hjq : (j : ℚ) + 1 ≤ (gt.stops.length : ℚ) := by exact_mod_cast hj
    constructor
    · apply div_nonneg (by positivity)
      linarith
    · rw [div_le_one (by linarith)]
      linarith

/-- Witness for C8: the amended theorem applied to a concrete document with
one gradient holding a located stop (`Location="50"` ↦ position `1/2`) and an
unlocated stop (index `1` of `2` stops ↦ position `1`). -/
theorem extractGradients_position_witness :
    0 ≤ (GradientColorStop.mk opaqueBlack 1).stop ∧
      (GradientColorStop.mk opaqueBlack 1).stop ≤ 1 :=
  extractGradients_position_in_unit_interval
    [⟨"g1", "Linear", [⟨"c", some 50⟩, ⟨"c", none⟩]⟩] [] (by decide)
    ("g1",
      { type := some "//ly.img.ubq/fill/gradient/linear"
        stops := [⟨opaqueBlack, 1 / 2⟩, ⟨opaqueBlack, 1⟩] })
    (by
      simp only [extractGradients, gradientEntry, mapWithIndex, mapWithIndexAux,
        getGradientStopColor, gradientTypeMap, List.map, List.lookup,
        List.mem_singleton]
      norm_num)
    ⟨opaqueBlack, 1⟩ (List.mem_cons_of_mem _ (List.mem_cons_self _ _))

/-- C1: the bounding box computed by `parsePathGeometry` collects only the
`Anchor` coordinates, NOT the `LeftDirection`/`RightDirection` control
points: anchors forming a 10×10 square with an outgoing control point at
`(15, 15)` yield a 10×10 box, not the at-least-15×15 box the specification
(and the repository's own fix documentation) requires. -/
theorem parsePathGeometry_bbox_anchors_only :
    (parsePathGeometry squareWithBulge).x = 0 ∧
    (parsePathGeometry squareWithBulge).y = 0 ∧
    (parsePathGeometry squareWithBulge).width = 10 ∧
    (parsePathGeometry squareWithBulge).height = 10 := by
  refine ⟨?_, ?_, ?_, ?_⟩ <;>
    · simp only [parsePathGeometry, squareWithBulge, allPathPoints, jsMin, jsMax,
        List.map, List.flatten, List.foldl, List.append_nil, List.nil_append]
      norm_num [min_def, max_def]

/-- C2 counterexample: on a two-point open sub-path the emitted path data is
`M 0,0 C -1,-2 1,2 0,0 C 9,1 11,-1 10,0 ` — every point (including the
first) contributes its own `(left_i, right_i, anchor_i)` curve command —
which differs from the specification's claimed description, whose single
segment pairs `right_0` with `left_1` and `anchor_1`. -/
theorem parsePathGeometry_pathData_ne_spec :
    (parsePathGeometry twoPointOpenGeometry).pathData ≠
      specSubPathData 0 0 False
        [⟨(0, 0), (-1, -2), (1, 2)⟩, ⟨(10, 0), (9, 1), (11, -1)⟩] := by
  have h1 : (parsePathGeometry twoPointOpenGeometry).pathData =
      "M 0,0 C -1,-2 1,2 0,0 C 9,1 11,-1 10,0 " := by
    simp only [parsePathGeometry, twoPointOpenGeometry, allPathPoints, jsMin, jsMax,
      geometryTypePathData, subPathData, subPathDataAux, pointPathData, moveCommand,
      curveCommand, renderNum, List.map, List.flatten, List.foldl, List.append_nil,
      List.nil_append]
    norm_num [min_def, max_def]
    rfl
  have h2 : specSubPathData 0 0 False
      [⟨(0, 0), (-1, -2), (1, 2)⟩, ⟨(10, 0), (9, 1), (11, -1)⟩] =
      "M 0,0 C 1,2 9,1 10,0 " := by
    simp only [specSubPathData, specSegmentsData, moveCommand, renderNum]
    norm_num
    rfl
  rw [h1, h2]
  decide

/-- C2 as amended: for every sub-path the emitted description starts with a
move to the first point's anchor translated into box-local coordinates
(anchor minus `x_min, y_min`), followed by one cubic command per point —
including the first — built from that point's OWN incoming handle, outgoing
handle and anchor, `(left_i, right_i, anchor_i)`, followed by a closing
command exactly when the sub-path's `PathOpen` attribute is `"false"`;
sub-paths are joined with separating whitespace. -/
theorem parsePathGeometry_pathData_described (pathGeometry : PathGeometry) :
    (parsePathGeometry pathGeometry).pathData =
      String.intercalate " "
        ((pathGeometry.geometryTypes.map (fun geometryType =>
          geometryType.pathPointArrays.map (fun pointArray =>
            describedSubPathData (parsePathGeometry pathGeometry).x
              (parsePathGeometry pathGeometry).y
              (geometryType.pathOpen = some "false") pointArray))).flatten) := by
  have key : ∀ (x y : ℚ) (closed : Prop) (inst : Decidable closed)
      (pointArray : List PathPoint),
      subPathData x y pointArray ++ (if closed then "Z" else "") =
        describedSubPathData x y closed pointArray := by
    intro x y closed inst pointArray
    cases pointArray with
    | nil =>
      simp [subPathData, subPathDataAux, describedSubPathData, curvesData,
        string_empty_append]
    | cons point rest =>
      simp only [subPathData, subPathDataAux, describedSubPathData, curvesData,
        pointPathData, if_pos rfl, if_true, subPathDataAux_succ, String.append_assoc]
  have hx : (parsePathGeometry pathGeometry).x =
      jsMin ((allPathPoints pathGeometry).map (fun point => point.anchor.1)) := rfl
  have hy : (parsePathGeometry pathGeometry).y =
      jsMin ((allPathPoints pathGeometry).map (fun point => point.anchor.2)) := rfl
  have hpd : (parsePathGeometry pathGeometry).pathData =
      String.intercalate " "
        ((pathGeometry.geometryTypes.map (geometryTypePathData
          (jsMin ((allPathPoints pathGeometry).map (fun point => point.anchor.1)))
          (jsMin ((allPathPoints pathGeometry).map (fun point => point.anchor.2))))).flatten) := rfl
  rw [hpd, hx, hy]
  congr 1
  congr 1
  congr 1
  funext geometryType
  rw [geometryTypePathData]
  congr 1
  funext pointArray
  exact key _ _ _ _ pointArray

/-- Enlarging the visited set cannot increase the number of unvisited ids. -/
theorem filter_not_mem_length_le (l v w : List String)
    (hsub : ∀ a : String, a ∈ v → a ∈ w) :
    (l.filter (fun a => decide (a ∉ w))).length ≤
      (l.filter (fun a => decide (a ∉ v))).length := by
  induction l with
  | nil => simp
  | cons a as ih =>
    by_cases hw : a ∈ w
    · rw [List.filter_cons_of_neg (by simp [hw])]
      by_cases hv : a ∈ v
      · rw [List.filter_cons_of_neg (by simp [hv])]
        exact ih
      · rw [List.filter_cons_of_pos (by simp [hv])]
        exact Nat.le_succ_of_le ih
    · have hv : a ∉ v := fun h => hw (hsub a h)
      rw [List.filter_cons_of_pos (by simp [hw]), List.filter_cons_of_pos (by simp [hv]),
        List.length_cons, List.length_cons]
      exact Nat.succ_le_succ ih

/-- Visiting one more id that does occur among the frames strictly decreases
the number of unvisited ids. -/
theorem filter_not_mem_length_lt (l v : List String) (id : String)
    (hl : id ∈ l) (hv : id ∉ v) :
    (l.filter (fun a => decide (a ∉ v ++ [id]))).length <
      (l.filter (fun a => decide (a ∉ v))).length := by
  induction l with
  | nil => exact absurd hl (List.not_mem_nil id)
  | cons a as ih =>
    by_cases ha : a = id
    · subst ha
      have h1 : a ∈ v ++ [a] := List.mem_append_right v (List.mem_singleton.mpr rfl)
      rw [List.filter_cons_of_neg (by simp [h1]), List.filter_cons_of_pos (by simp [hv]),
        List.length_cons]
      exact Nat.lt_succ_of_le
        (filter_not_mem_length_le as v (v ++ [a]) (fun b hb => List.mem_append_left _ hb))
    · have hl2 : id ∈ as := by
        rcases List.mem_cons.mp hl with h | h
        · exact absurd h.symm ha
        · exact h
      by_cases hav : a ∈ v
      · have h1 : a ∈ v ++ [id] := List.mem_append_left _ hav
        rw [List.filter_cons_of_neg (by simp [h1]), List.filter_cons_of_neg (by simp [hav])]
        exact ih hl2
      · have h1 : a ∉ v ++ [id] := by
          intro h
          rcases List.mem_append.mp h with h | h
          · exact hav h
          · exact ha (List.mem_singleton.mp h)
        rw [List.filter_cons_of_pos (by simp [h1]), List.filter_cons_of_pos (by simp [hav]),
          List.length_cons, List.length_cons]
        exact Nat.succ_lt_succ (ih hl2)

/-- The last element reported by `getLast?` is a member of the list. -/
theorem mem_of_getLast?_eq_some {α : Type} {l : List α} {a : α}
    (h : l.getLast? = some a) : a ∈ l := by
  obtain ⟨hne, heq⟩ := List.mem_getLast?_eq_getLast h
  rw [heq]
  exact List.getLast_mem hne

/-- A frame returned by the `frameMap` lookup comes from the input list. -/
theorem nextFrame_mem (textFrames : List TextFrame) (currentFrame tf : TextFrame)
    (h : nextFrame textFrames currentFrame = some tf) : tf ∈ textFrames := by
  unfold nextFrame at h
  split at h
  · split at h
    · unfold frameMapGet at h
      have hmem := mem_of_getLast?_eq_some h
      exact (List.mem_filter.mp hmem).1
    · exact absurd h (by simp)
  · exact absurd h (by simp)

/-- Any two fuel values strictly above the number of unvisited ids give the
same walk result: the fuel bound of `orderGo` is never the reason the walk
stops, so the embedding agrees with the unbounded `while` loop of the
source. -/
theorem orderGo_fuel_irrelevant (textFrames : List TextFrame) :
    ∀ (fuel₁ fuel₂ : ℕ) (cur : Option TextFrame) (visited : List String)
      (ordered : List TextFrame) (logs : List String),
      (∀ tf, cur = some tf → tf ∈ textFrames) →
      remainingIds textFrames visited < fuel₁ →
      remainingIds textFrames visited < fuel₂ →
      orderGo textFrames fuel₁ cur visited ordered logs =
        orderGo textFrames fuel₂ cur visited ordered logs := by
  intro fuel₁
  induction fuel₁ with
  | zero => intro fuel₂ cur visited ordered logs _ h1 _; omega
  | succ f₁ ih =>
    intro fuel₂ cur visited ordered logs hcur h1 h2
    cases cur with
    | none => cases fuel₂ <;> rfl
    | some currentFrame =>
      cases fuel₂ with
      | zero => omega
      | succ f₂ =>
        rw [orderGo, orderGo]
        by_cases hmem : currentFrame.self ∈ visited
        · rw [if_pos hmem, if_pos hmem]
        · rw [if_neg hmem, if_neg hmem]
          have hcf : currentFrame ∈ textFrames := hcur currentFrame rfl
          have hself : currentFrame.self ∈ textFrames.map (fun tf => tf.self) :=
            List.mem_map.mpr ⟨currentFrame, hcf, rfl⟩
          have hdec : remainingIds textFrames (visited ++ [currentFrame.self]) <
              remainingIds textFrames visited :=
            filter_not_mem_length_lt _ visited currentFrame.self hself hmem
          apply ih
          · intro tf htf
            exact nextFrame_mem textFrames currentFrame tf htf
          · omega
          · omega

/-- The walk never collects the same frame id twice: every collected frame
has its id in the visited set, and a frame whose id is already visited ends
the walk. -/
theorem orderGo_nodup (textFrames : List TextFrame) :
    ∀ (fuel : ℕ) (cur : Option TextFrame) (visited : List String)
      (ordered : List TextFrame) (logs : List String),
      (ordered.map (fun tf => tf.self)).Nodup →
      (∀ tf ∈ ordered, tf.self ∈ visited) →
      (((orderGo textFrames fuel cur visited ordered logs).1.map
        (fun tf => tf.self)).Nodup) := by
  intro fuel
  induction fuel with
  | zero =>
    intro cur visited ordered logs hnd _
    cases cur <;> exact hnd
  | succ f ih =>
    intro cur visited ordered logs hnd hvis
    cases cur with
    | none => exact hnd
    | some currentFrame =>
      rw [orderGo]
      by_cases hmem : currentFrame.self ∈ visited
      · rw [if_pos hmem]; exact hnd
      · rw [if_neg hmem]
        apply ih
        · rw [List.map_append]
          apply List.Nodup.append hnd (List.nodup_singleton _)
          intro a ha hb
          rw [List.mem_singleton] at hb
          subst hb
          obtain ⟨tf, htf, hself⟩ := List.mem_map.mp ha
          simp only at hself
          exact hmem (hself ▸ hvis tf htf)
        · intro tf htf
          rcases List.mem_append.mp htf with h | h
          · exact List.mem_append_left _ (hvis tf h)
          · rw [List.mem_singleton] at h
            subst h
            exact List.mem_append_right _ (List.mem_singleton.mpr rfl)

/-- C5: `orderTextFrames` is a total function (it terminates on every finite
frame list, cyclic links included, and never throws), and whenever it
returns an order rather than `null`, no frame identifier occurs twice in
it — on a cycle the walk is cut short instead of looping. -/
theorem orderTextFrames_no_duplicates (textFrames : List TextFrame)
    (l : List TextFrame) (h : (orderTextFrames textFrames).1 = some l) :
    (l.map (fun tf => tf.self)).Nodup := by
  rw [orderTextFrames] at h
  cases hfind : textFrames.find? (fun tf => tf.previousTextFrame == some "n") with
  | none => rw [hfind] at h; exact absurd h (by simp)
  | some currentFrame =>
    rw [hfind] at h
    simp only at h
    split at h
    · exact absurd h (by simp)
    · split at h
      · rw [Option.some.injEq] at h
        subst h
        exact orderGo_nodup textFrames _ _ _ _ _ List.nodup_nil (by simp)
      · rw [Option.some.injEq] at h
        subst h
        exact orderGo_nodup textFrames _ _ _ _ _ List.nodup_nil (by simp)

/-- Witness for C5: on the cyclic chain `A → B → A` the walk terminates,
returns the partial, non-looping order `[A, B]` (no repeated identifier) and
logs the loop warning. -/
theorem orderTextFrames_cycle_witness :
    (([frameA, frameB].map (fun tf => tf.self)).Nodup) ∧
    orderTextFrames [frameA, frameB] = (some [frameA, frameB], ["! Loop detected"]) :=
  ⟨orderTextFrames_no_duplicates [frameA, frameB] [frameA, frameB] (by rfl),
   by rfl⟩

/-- The split loop pushes exactly one index per iteration. -/
theorem splitLoopGo_length (fullText : List Char) (textLen : ℕ) (idealChars : ℚ)
    (nlIndices : List ℕ) :
    ∀ (k i lastSplit : ℕ),
      (splitLoopGo fullText textLen idealChars nlIndices k i lastSplit).length = k := by
  intro k
  induction k with
  | zero => intro i lastSplit; rfl
  | succ k ih =>
    intro i lastSplit
    simp only [splitLoopGo, List.length_cons, ih]

/-- Every split the loop pushes lies between the previous split and the text
length, and consecutive splits are non-decreasing. -/
theorem splitLoopGo_bounds (fullText : List Char) (textLen : ℕ) (idealChars : ℚ)
    (nlIndices : List ℕ) :
    ∀ (k i lastSplit : ℕ), lastSplit ≤ textLen →
      List.Chain' (· ≤ ·)
        (lastSplit :: splitLoopGo fullText textLen idealChars nlIndices k i lastSplit) ∧
      ∀ s ∈ splitLoopGo fullText textLen idealChars nlIndices k i lastSplit,
        s ≤ textLen := by
  intro k
  induction k with
  | zero =>
    intro i lastSplit _
    exact ⟨List.chain'_singleton _, fun s hs => absurd hs (List.not_mem_nil s)⟩
  | succ k ih =>
    intro i lastSplit hlast
    simp only [splitLoopGo]
    generalize bestSplitCandidate fullText textLen idealChars nlIndices i lastSplit = b
    have hc1 : lastSplit ≤ (min (textLen : ℤ) (max (lastSplit : ℤ) b)).toNat := by omega
    have hc2 : (min (textLen : ℤ) (max (lastSplit : ℤ) b)).toNat ≤ textLen := by omega
    obtain ⟨ihc, ihm⟩ := ih (i + 1) ((min (textLen : ℤ) (max (lastSplit : ℤ) b)).toNat) hc2
    refine ⟨List.chain'_cons.mpr ⟨hc1, ihc⟩, ?_⟩
    intro s hs
    rcases List.mem_cons.mp hs with rfl | hs2
    · exact hc2
    · exact ihm s hs2

/-- Concatenating the slices delimited by a non-decreasing chain of
boundaries starting at `start` recovers the text from `start` on. -/
theorem cutAtSplitsGo_flatten (fullText : List Char) :
    ∀ (splits : List ℕ) (start : ℕ),
      List.Chain' (· ≤ ·) (start :: splits) →
      (cutAtSplitsGo fullText start splits).flatten = fullText.drop start := by
  intro splits
  induction splits with
  | nil =>
    intro start _
    simp [cutAtSplitsGo]
  | cons b bs ih =>
    intro start hchain
    have hsb : start ≤ b := (List.chain'_cons.mp hchain).1
    have hrest := (List.chain'_cons.mp hchain).2
    rw [cutAtSplitsGo, List.flatten_cons, ih b hrest]
    have hdrop : fullText.drop b = (fullText.drop start).drop (b - start) := by
      rw [List.drop_drop]
      congr 1
      omega
    rw [hdrop, List.take_append_drop]

/-- C4 as amended: when the frame count is at least `2` and the text is
non-empty, `calculateSplitIndices` returns exactly `frameCount - 1` split
indices; the splits are always monotonically NON-decreasing (equal adjacent
splits do occur); and cutting the text at the splits and concatenating the
pieces in order reproduces the text exactly (lossless partition). -/
theorem calculateSplitIndices_spec (fullText : List Char) (numFrames : ℕ) :
    (2 ≤ numFrames → fullText ≠ [] →
      (calculateSplitIndices fullText numFrames).length = numFrames - 1) ∧
    List.Chain' (· ≤ ·) (calculateSplitIndices fullText numFrames) ∧
    (cutAtSplits fullText (calculateSplitIndices fullText numFrames)).flatten =
      fullText := by
  by_cases hguard : numFrames ≤ 1 ∨ fullText.length = 0
  · have he : calculateSplitIndices fullText numFrames = [] := by
      simp only [calculateSplitIndices]
      rw [if_pos hguard]
    refine ⟨?_, ?_, ?_⟩
    · intro h2 hne
      rcases hguard with h | h
      · omega
      · exact absurd (List.length_eq_zero.mp h) hne
    · rw [he]
      exact List.chain'_nil
    · rw [he]
      simp [cutAtSplits, cutAtSplitsGo]
  · have he : calculateSplitIndices fullText numFrames =
        splitLoopGo fullText fullText.length
          ((fullText.length : ℚ) / (numFrames : ℚ)) (nlIndicesOf fullText)
          (numFrames - 1) 0 0 := by
      simp only [calculateSplitIndices]
      rw [if_neg hguard]
    have hb := splitLoopGo_bounds fullText fullText.length
      ((fullText.length : ℚ) / (numFrames : ℚ)) (nlIndicesOf fullText)
      (numFrames - 1) 0 0 (Nat.zero_le _)
    refine ⟨?_, ?_, ?_⟩
    · intro _ _
      rw [he]
      exact splitLoopGo_length fullText fullText.length _ (nlIndicesOf fullText) _ 0 0
    · rw [he]
      exact hb.1.tail
    · rw [he, cutAtSplits, cutAtSplitsGo_flatten fullText _ 0 hb.1, List.drop_zero]

/-- Witness for C4: on the two-character text `"ab"` with frame count `2`
the theorem yields one split, a non-decreasing split list and the lossless
reconstruction. -/
theorem calculateSplitIndices_spec_witness :
    (calculateSplitIndices ['a', 'b'] 2).length = 2 - 1 ∧
    List.Chain' (· ≤ ·) (calculateSplitIndices ['a', 'b'] 2) ∧
    (cutAtSplits ['a', 'b'] (calculateSplitIndices ['a', 'b'] 2)).flatten =
      ['a', 'b'] :=
  ⟨(calculateSplitIndices_spec ['a', 'b'] 2).1 (by decide) (by decide),
   (calculateSplitIndices_spec ['a', 'b'] 2).2.1,
   (calculateSplitIndices_spec ['a', 'b'] 2).2.2⟩

/-- C4 counterexample: on empty text with frame count `3` the function
returns no splits at all (not `frameCount - 1 = 2` of them), and on the
one-character text `"a"` with frame count `4` it returns `[0, 1, 1]`, which
is NOT monotonically (strictly) increasing. -/
theorem calculateSplitIndices_counterexample :
    calculateSplitIndices [] 3 = [] ∧
    calculateSplitIndices ['a'] 4 = [0, 1, 1] ∧
    ¬ List.Chain' (· < ·) [0, 1, 1] := by
  refine ⟨?_, ?_, ?_⟩
  · simp [calculateSplitIndices]
  · have h1 : nlIndicesOf ['a'] = [] := by decide
    simp only [calculateSplitIndices, List.length_singleton, h1]
    norm_num [splitLoopGo, bestSplitCandidate, jsRound]
  · norm_num [List.chain'_cons]

/-- Projecting a vector and its negation onto the unit rectangle yields
points that are reflections of each other through `(0.5, 0.5)`. -/
theorem scaleAndTranslateToUnitRect_neg_add (v : Vector2) :
    (scaleAndTranslateToUnitRect ⟨-v.x, -v.y⟩).x + (scaleAndTranslateToUnitRect v).x = 1 ∧
    (scaleAndTranslateToUnitRect ⟨-v.x, -v.y⟩).y + (scaleAndTranslateToUnitRect v).y = 1 := by
  unfold scaleAndTranslateToUnitRect
  simp only [abs_neg]
  by_cases h : max |v.x| |v.y| = 0
  · rw [if_pos h, if_pos h]
    norm_num
  · rw [if_neg h, if_neg h]
    constructor <;> (simp only; ring)

/-- C7 as amended: for every angle (in degrees) and every NONZERO aspect
ratio, the `start` and `end` control points returned by
`angleToGradientControlPoints` are reflections of each other through
`(0.5, 0.5)`: `start.x + end.x = 1` and `start.y + end.y = 1`.  At aspect
ratio `0` the source divides by zero and the control points degenerate to
`NaN` (see the counterexample over the JavaScript-number domain below), so
the property is asserted only away from that error path. -/
theorem angleToGradientControlPoints_reflection (angleInDegrees aspectRatio : ℝ)
    (haspect : aspectRatio ≠ 0) :
    (angleToGradientControlPoints angleInDegrees aspectRatio).start.x +
      (angleToGradientControlPoints angleInDegrees aspectRatio).endPoint.x = 1 ∧
    (angleToGradientControlPoints angleInDegrees aspectRatio).start.y +
      (angleToGradientControlPoints angleInDegrees aspectRatio).endPoint.y = 1 := by
  unfold angleToGradientControlPoints
  simp only
  set rad := ((angleInDegrees + 90) / 180) * Real.pi with hrad
  have harg : (⟨Real.cos (rad + Real.pi) / aspectRatio * sqrtOfTwo,
      Real.sin (rad + Real.pi) * sqrtOfTwo⟩ : Vector2) =
      ⟨-(Real.cos rad / aspectRatio * sqrtOfTwo), -(Real.sin rad * sqrtOfTwo)⟩ := by
    rw [Real.cos_add_pi, Real.sin_add_pi]
    simp only [Vector2.mk.injEq]
    constructor <;> ring
  rw [harg]
  exact scaleAndTranslateToUnitRect_neg_add
    ⟨Real.cos rad / aspectRatio * sqrtOfTwo, Real.sin rad * sqrtOfTwo⟩

/-- With a `NaN` first component, the unit-rectangle projection returns a
`NaN` x-component: `Math.max` propagates the `NaN` into `longSide`, the
`=== 0` guard fails, and the division chain propagates it further. -/
theorem jsScaleAndTranslateToUnitRect_nan_x (y : JSNum) :
    (jsScaleAndTranslateToUnitRect ⟨JSNum.nan, y⟩).x = JSNum.nan := by
  unfold jsScaleAndTranslateToUnitRect
  simp only [jsAbs, jsNumMax]
  rw [if_neg (by simp)]
  simp [jsDiv, jsMul, jsAdd]

/-- C7 counterexample, over the JavaScript-number domain: at angle `0` and
aspect ratio `0` the source computes `cos(3π/2) / 0 = 0 / 0 = NaN` (and
likewise for the end vector), `Math.max` propagates the `NaN` into
`longSide`, and both x-components — and hence their sum — are `NaN`, not
`1`: the claimed reflection identity fails at this input. -/
theorem jsAngleToGradientControlPoints_zero_aspectRatio_nan :
    jsAdd (jsAngleToGradientControlPoints (JSNum.finite 0) (JSNum.finite 0)).start.x
      (jsAngleToGradientControlPoints (JSNum.finite 0) (JSNum.finite 0)).endPoint.x =
      JSNum.nan ∧
    JSNum.nan ≠ JSNum.finite 1 := by
  have hrad : jsMul (jsDiv (jsAdd (JSNum.finite 0) (JSNum.finite 90)) (JSNum.finite 180))
      (JSNum.finite Real.pi) = JSNum.finite (Real.pi / 2) := by
    simp only [jsAdd, jsDiv]
    rw [if_neg (by norm_num)]
    simp only [jsMul, JSNum.finite.injEq]
    ring
  have hcos1 : jsCos (jsAdd (JSNum.finite (Real.pi / 2)) (JSNum.finite Real.pi)) =
      JSNum.finite 0 := by
    simp only [jsAdd, jsCos, JSNum.finite.injEq]
    rw [Real.cos_add_pi, Real.cos_pi_div_two, neg_zero]
  have hcos2 : jsCos (JSNum.finite (Real.pi / 2)) = JSNum.finite 0 := by
    simp only [jsCos, JSNum.finite.injEq]
    exact Real.cos_pi_div_two
  have hdiv : jsDiv (JSNum.finite 0) (JSNum.finite 0) = JSNum.nan := by
    simp [jsDiv]
  have hmul : jsMul JSNum.nan jsSqrtOfTwo = JSNum.nan := by
    simp [jsMul]
  constructor
  · unfold jsAngleToGradientControlPoints
    simp only [hrad, hcos1, hcos2, hdiv, hmul]
    rw [jsScaleAndTranslateToUnitRect_nan_x, jsScaleAndTranslateToUnitRect_nan_x]
    simp [jsAdd]
  · simp

/-- Witness for C7: the amended reflection theorem applied at angle `0` and
the concrete nonzero aspect ratio `1`. -/
theorem angleToGradientControlPoints_reflection_witness :
    (angleToGradientControlPoints 0 1).start.x +
      (angleToGradientControlPoints 0 1).endPoint.x = 1 ∧
    (angleToGradientControlPoints 0 1).start.y +
      (angleToGradientControlPoints 0 1).endPoint.y = 1 :=
  angleToGradientControlPoints_reflection 0 1 one_ne_zero

end IDML
